import Mathlib

/-!
# redis-migration: the HTTP facade of `app/server.js`

A shallow embedding of the route handlers and of the connection flag of
`app/server.js`, and the properties of the request/response contract.

* JavaScript values that reach a handler are `JSVal`; `toBoolean` is the
  language's truthiness, used by `if (!key)`.
* A handler is a `Handler`: either it responds at once, or it awaits one
  command of the store client and responds from the settled promise
  (`try { await client.op(..); res.json(..) } catch (err) { res.status(500).. }`).
* The store client (`redis`) is an external collaborator. Handlers are run
  against any `Client`; the claims that speak about what the store itself
  answers are settled on `Store`, a model of the store written from the
  specification.
* `GET /health` reads the clock and takes no part in the properties below; the
  password, the connection URL and the listening port are startup plumbing.
-/

namespace RedisMigration

/-! ## JavaScript values -/

/-- A JavaScript number: every double is one of these (`fin q` with `q` the
exact rational value of a finite double, `fin 0` being `+0`). -/
inductive JSNum where
  | nan
  | posInf
  | negInf
  | negZero
  | fin (q : ℚ)
  deriving DecidableEq

/-- A JavaScript value as delivered by the JSON body parser, the query-string
parser or the store client. -/
inductive JSVal where
  | undefined
  | null
  | bool (b : Bool)
  | num (x : JSNum)
  | str (s : String)
  | arr (items : List JSVal)
  | obj (props : List (String × JSVal))

namespace JSNum

/-- ToBoolean on numbers: `+0`, `-0` and `NaN` are falsy. -/
def toBoolean : JSNum → Bool
  | nan => false
  | negZero => false
  | fin q => decide (q ≠ 0)
  | posInf => true
  | negInf => true

/-- The number with integer value `i`. -/
def ofInt (i : Int) : JSNum := fin (i : ℚ)

end JSNum

namespace JSVal

/-- ToBoolean of the language: what `if (!key)` tests. -/
def toBoolean : JSVal → Bool
  | undefined => false
  | null => false
  | bool b => b
  | num x => x.toBoolean
  | str s => decide (s ≠ "")
  | arr _ => true
  | obj _ => true

/-- Property read `o.name` on an object given by its own properties: an absent
property reads as `undefined`. -/
def prop (props : List (String × JSVal)) (name : String) : JSVal :=
  match props.lookup name with
  | some v => v
  | none => undefined

/-- Property read `v.name` on a value; only objects carry the properties read
here. -/
def get (v : JSVal) (name : String) : JSVal :=
  match v with
  | obj props => prop props name
  | _ => undefined

end JSVal

/-! ## Requests, responses, store commands -/

/-- What a handler reads of `req`: `req.body` as left by `bodyParser.json()`
and `req.query` as left by the query-string parser, each an object given by
its properties. -/
structure Request where
  body : List (String × JSVal)
  query : List (String × JSVal)

/-- What a handler writes to `res`: the status code and the value handed to
`res.json`. -/
structure Response where
  status : Nat
  body : JSVal

/-- The calls made on the store client: `client.ping()`,
`client.set(key, value)`, `client.get(key)`, `client.incr(key)`. -/
inductive Command where
  | ping
  | set (key value : JSVal)
  | get (key : JSVal)
  | incr (key : JSVal)

/-- The value a rejected store call throws; handlers read `err.message`. -/
structure JSError where
  message : JSVal

/-- The settled promise of a store call. -/
abbrev Outcome := Except JSError JSVal

/-- The control flow of a route handler: respond without touching the store,
or issue one store command and respond from its outcome. -/
inductive Handler where
  | respond (res : Response)
  | await (cmd : Command) (resolved : JSVal → Response) (rejected : JSError → Response)

/-- The call `res.json(body)`: status 200. -/
def json (body : JSVal) : Response := ⟨200, body⟩

/-- The call `res.status(code).json(body)`. -/
def statusJson (code : Nat) (body : JSVal) : Response := ⟨code, body⟩

/-- The body `{ error: 'Key is required' }`. -/
def keyRequired : JSVal := .obj [("error", .str "Key is required")]

/-- The body `{ error: err.message }`. -/
def errorBody (err : JSError) : JSVal := .obj [("error", err.message)]

/-! ## Configuration and the connection flag -/

/-- The expression `process.env.NAME || dflt`: an unset or empty variable gives
the default. -/
def envOr (v : Option String) (dflt : String) : String :=
  match v with
  | some s => if s = "" then dflt else s
  | none => dflt

/-- The environment variables read at startup. -/
structure Env where
  REDIS_HOST : Option String
  REDIS_PORT : Option String

/-- The constant `REDIS_HOST = process.env.REDIS_HOST || 'localhost'`. -/
def REDIS_HOST (env : Env) : String := envOr env.REDIS_HOST "localhost"

/-- The constant `REDIS_PORT = process.env.REDIS_PORT || '6379'`. -/
def REDIS_PORT (env : Env) : String := envOr env.REDIS_PORT "6379"

/-- The events that reach the connection flag: the three `client.on` hooks and
the two ways the startup `await client.connect()` settles. -/
inductive Event where
  | error
  | connect
  | ready
  | connectResolved
  | connectRejected
  deriving DecidableEq

/-- The initial value of the flag: `let redisConnected = false`. -/
def redisConnectedInit : Bool := false

/-- The effect of one event on `redisConnected`: the `error` hook clears it,
the `ready` hook sets it, the `connect` hook and the startup `try`/`catch`
only log. -/
def onEvent (redisConnected : Bool) : Event → Bool
  | .error => false
  | .ready => true
  | .connect => redisConnected
  | .connectResolved => redisConnected
  | .connectRejected => redisConnected

/-- The flag `redisConnected` after a sequence of events, oldest first. -/
def redisConnectedAfter (events : List Event) : Bool :=
  events.foldl onEvent redisConnectedInit

/-! ## Route handlers -/

/-- The fixed `endpoints` object of `GET /`. -/
def endpoints : JSVal :=
  .obj [("health", .str "/health"),
        ("redisHealth", .str "/redis-health"),
        ("set", .str "POST /set \x7b \x22key\x22: \x22...\x22, \x22value\x22: \x22...\x22 \x7d"),
        ("get", .str "GET /get?key=..."),
        ("incr", .str "POST /incr \x7b \x22key\x22: \x22counter\x22 \x7d")]

/-- The handler of `app.get('/')`; `redisConnected` is the flag read when the
handler runs. -/
def getIndex (env : Env) (redisConnected : Bool) (_req : Request) : Handler :=
  .respond (json (.obj [
    ("message", .str "Redis Migration Demo App"),
    ("redis", .obj [("host", .str (REDIS_HOST env)),
                    ("port", .str (REDIS_PORT env)),
                    ("connected", .bool redisConnected)]),
    ("endpoints", endpoints)]))

/-- The handler of `app.get('/redis-health')`. -/
def getRedisHealth (_req : Request) : Handler :=
  .await .ping
    (fun pong => json (.obj [("status", .str "ok"), ("redis", .str "connected"), ("ping", pong)]))
    (fun err => statusJson 500 (.obj [("status", .str "error"), ("error", err.message)]))

/-- The handler of `app.post('/set')`. -/
def postSet (req : Request) : Handler :=
  let key := JSVal.prop req.body "key"
  let value := JSVal.prop req.body "value"
  if !key.toBoolean then
    .respond (statusJson 400 keyRequired)
  else
    .await (.set key value)
      (fun _ => json (.obj [("status", .str "ok"), ("key", key), ("value", value)]))
      (fun err => statusJson 500 (errorBody err))

/-- The handler of `app.get('/get')`. -/
def getGet (req : Request) : Handler :=
  let key := JSVal.prop req.query "key"
  if !key.toBoolean then
    .respond (statusJson 400 keyRequired)
  else
    .await (.get key)
      (fun value => json (.obj [("status", .str "ok"), ("key", key), ("value", value)]))
      (fun err => statusJson 500 (errorBody err))

/-- The handler of `app.post('/incr')`. -/
def postIncr (req : Request) : Handler :=
  let key := JSVal.prop req.body "key"
  if !key.toBoolean then
    .respond (statusJson 400 keyRequired)
  else
    .await (.incr key)
      (fun newVal => json (.obj [("status", .str "ok"), ("key", key), ("value", newVal)]))
      (fun err => statusJson 500 (errorBody err))

/-! ## Running a handler against a store client -/

/-- A store client over store states `σ`: a command settles to an outcome and
leaves a store state. -/
abbrev Client (σ : Type) := Command → σ → Outcome × σ

/-- The store commands a handler issues. -/
def Handler.commands : Handler → List Command
  | .respond _ => []
  | .await cmd _ _ => [cmd]

/-- Run a handler: the response sent and the store state left. -/
def Handler.run {σ : Type} (client : Client σ) (h : Handler) (s : σ) : Response × σ :=
  match h with
  | .respond res => (res, s)
  | .await cmd resolved rejected =>
    match client cmd s with
    | (.ok v, s') => (resolved v, s')
    | (.error err, s') => (rejected err, s')

/-! ## The store, modelled from the specification -/

/-- Modelled from the spec: the value of a decimal digit string read left to
right from `acc`, part of the store's reading of a value as an integer; `none`
when a character is not a decimal digit. -/
def parseDigits : List Char → Nat → Option Nat
  | [], acc => some acc
  | c :: cs, acc =>
    if c.isDigit then parseDigits cs (acc * 10 + (c.toNat - 48)) else none

/-- Modelled from the spec: a non-empty decimal digit string as a natural
number, part of the store's reading of a value as an integer. -/
def parseNat (cs : List Char) : Option Nat :=
  if cs = [] then none else parseDigits cs 0

/-- Modelled from the spec: the store's reading of a value as an integer
("treats a key's value as an integer"): an optional minus sign followed by
decimal digits; `none` for a non-numeric string. -/
def parseInteger (s : String) : Option Int :=
  match s.data with
  | [] => none
  | c :: cs =>
    if c = '-' then (parseNat cs).map (fun n => -(n : Int))
    else (parseNat (c :: cs)).map (fun n => (n : Int))

/-- Modelled from the spec: the decimal string the store keeps for an integer
counter. -/
def formatInteger : Int → String
  | .ofNat n => String.mk (Nat.toDigits 10 n)
  | .negSucc n => String.mk ('-' :: Nat.toDigits 10 (n + 1))

/-- Modelled from the spec: what the store protocol answers where the
specification names no literal: the reply to Ping, the reply to an accepted
Set, the error of an Increment on a non-numeric value, and the outcome of a
command outside the data model of the specification (a key or a value that is
not a string). -/
structure Protocol where
  pong : JSVal
  setReply : JSVal
  notAnInteger : JSError
  other : Command → Outcome

/-- Modelled from the spec: the external key-value store behind the client.
`down = some err` is a lost connection: every command is rejected with `err`.
`data` holds "whatever was last written", the newest binding of a key first. -/
structure Store where
  down : Option JSError
  data : List (String × String)

namespace Store

/-- Modelled from the spec: the value the store holds under `k`, if any. -/
def lookup (s : Store) (k : String) : Option String := s.data.lookup k

/-- Modelled from the spec: the store with `v` written under `k`. -/
def write (s : Store) (k v : String) : Store := { s with data := (k, v) :: s.data }

/-- Modelled from the spec: the store client of section 3 and the glossary.
Ping answers; Set(key, value) writes; Get(key) reads, `null` when the key is
absent; Increment(key) reads the value as an integer, 0 when the key is absent,
adds one, writes the result back and answers it, and is rejected, writing
nothing, when the value is not numeric. The integer is unbounded: the
specification states no range. -/
def exec (P : Protocol) : Client Store := fun cmd s =>
  match s.down with
  | some err => (.error err, s)
  | none =>
    match cmd with
    | .ping => (.ok P.pong, s)
    | .set (.str k) (.str v) => (.ok P.setReply, s.write k v)
    | .get (.str k) =>
      match s.lookup k with
      | some v => (.ok (.str v), s)
      | none => (.ok .null, s)
    | .incr (.str k) =>
      let current : Option Int :=
        match s.lookup k with
        | some v => parseInteger v
        | none => some 0
      match current with
      | some i => (.ok (.num (.ofInt (i + 1))), s.write k (formatInteger (i + 1)))
      | none => (.error P.notAnInteger, s)
    | cmd => (P.other cmd, s)

/-- Modelled from the spec: the store after a sequence of commands. -/
def execAll (P : Protocol) : List Command → Store → Store
  | [], s => s
  | c :: cs, s => execAll P cs (exec P c s).2

end Store

/-- Whether a command may write the key `k`: a Set or an Increment whose key is
`k`, or is not a string. -/
def Command.mayWrite (k : String) : Command → Bool
  | .set (.str k') _ => k' == k
  | .incr (.str k') => k' == k
  | .set _ _ => true
  | .incr _ => true
  | _ => false

/-- The protocol literals of a Redis server, used where a statement is
evaluated on a concrete store. -/
def redisProtocol : Protocol where
  pong := .str "PONG"
  setReply := .str "OK"
  notAnInteger := ⟨.str "ERR value is not an integer or out of range"⟩
  other := fun _ => .error ⟨.str "Invalid argument type"⟩

/-! ## Requests used in the statements -/

/-- The request `POST /set` with body `{ key: k, value: v }`. -/
def setRequest (k v : JSVal) : Request := ⟨[("key", k), ("value", v)], []⟩

/-- The request `GET /get?key=k`. -/
def getRequest (k : JSVal) : Request := ⟨[], [("key", k)]⟩

/-- The request `POST /incr` with body `{ key: k }`. -/
def incrRequest (k : JSVal) : Request := ⟨[("key", k)], []⟩

/-- The body `{ status: 'ok', key, value }`. -/
def okBody (key value : JSVal) : JSVal :=
  .obj [("status", .str "ok"), ("key", key), ("value", value)]

/-- The responses of successive `POST /incr { key: k }` calls, oldest first;
before each call the store executes the commands of one gap, the traffic of
other requests. -/
def incrCalls (P : Protocol) (k : String) : List (List Command) → Store → List Response
  | [], _ => []
  | gap :: gaps, s =>
    let r := (postIncr (incrRequest (.str k))).run (Store.exec P) (Store.execAll P gap s)
    r.1 :: incrCalls P k gaps r.2

/-! ## Decimal strings -/

theorem digitChar_isDigit (m : Nat) (h : m < 10) :
    (Nat.digitChar m).isDigit = true ∧ (Nat.digitChar m).toNat - 48 = m := by
  interval_cases m <;> decide

theorem parseDigits_toDigitsCore (fuel : Nat) :
    ∀ (n : Nat) (ds : List Char), n < fuel →
      parseDigits (Nat.toDigitsCore 10 fuel n ds) 0 = parseDigits ds n := by
  induction fuel with
  | zero => intro n ds h; omega
  | succ fuel ih =>
    intro n ds h
    have hd := digitChar_isDigit (n % 10) (Nat.mod_lt _ (by decide))
    simp only [Nat.toDigitsCore]
    split
    · rename_i h0
      have hn : n % 10 = n := by omega
      rw [hn] at hd
      simp only [parseDigits, hn, hd.1, if_true, hd.2, Nat.zero_mul, Nat.zero_add]
    · rename_i h0
      rw [ih (n / 10) _ (by omega)]
      simp only [parseDigits, hd.1, if_true, hd.2]
      congr 1
      omega

theorem toDigitsCore_ne_nil (fuel : Nat) :
    ∀ (n : Nat) (c : Char) (ds : List Char), Nat.toDigitsCore 10 fuel n (c :: ds) ≠ [] := by
  induction fuel with
  | zero => intro n c ds; simp [Nat.toDigitsCore]
  | succ fuel ih =>
    intro n c ds
    simp only [Nat.toDigitsCore]
    split
    · simp
    · exact ih _ _ _

theorem toDigits_ne_nil (n : Nat) : Nat.toDigits 10 n ≠ [] := by
  simp only [Nat.toDigits, Nat.toDigitsCore]
  split
  · simp
  · exact toDigitsCore_ne_nil _ _ _ _

theorem parseDigits_toDigits (n : Nat) : parseDigits (Nat.toDigits 10 n) 0 = some n := by
  have h := parseDigits_toDigitsCore (n + 1) n [] (by omega)
  simpa [Nat.toDigits, parseDigits] using h

/-- Reading back the decimal string of a natural number gives the number. -/
theorem parseInteger_formatInteger (n : Nat) :
    parseInteger (formatInteger (n : Int)) = some (n : Int) := by
  have hp := parseDigits_toDigits n
  have hne := toDigits_ne_nil n
  show parseInteger (String.mk (Nat.toDigits 10 n)) = some (n : Int)
  unfold parseInteger
  simp only
  generalize Nat.toDigits 10 n = cs at hp hne
  cases cs with
  | nil => exact absurd rfl hne
  | cons c cs =>
    have hc : c.isDigit = true := by
      by_contra hc
      simp [parseDigits, hc] at hp
    have hm : c ≠ '-' := by
      intro h
      subst h
      exact absurd hc (by decide)
    simp [hm, parseNat, hp]

/-! ## The handlers against any store client -/

theorem run_respond {σ : Type} (client : Client σ) (res : Response) (s : σ) :
    (Handler.respond res).run client s = (res, s) := rfl

theorem run_await_ok {σ : Type} (client : Client σ) (cmd : Command)
    (resolved : JSVal → Response) (rejected : JSError → Response) (s s' : σ) (v : JSVal)
    (h : client cmd s = (.ok v, s')) :
    (Handler.await cmd resolved rejected).run client s = (resolved v, s') := by
  simp [Handler.run, h]

theorem run_await_error {σ : Type} (client : Client σ) (cmd : Command)
    (resolved : JSVal → Response) (rejected : JSError → Response) (s s' : σ) (err : JSError)
    (h : client cmd s = (.error err, s')) :
    (Handler.await cmd resolved rejected).run client s = (rejected err, s') := by
  simp [Handler.run, h]

/-- The status of an awaiting handler is that of one of its two continuations. -/
theorem run_await_status {σ : Type} (client : Client σ) (cmd : Command)
    (resolved : JSVal → Response) (rejected : JSError → Response) (s : σ) :
    (∃ v, ((Handler.await cmd resolved rejected).run client s).1 = resolved v) ∨
    (∃ err, ((Handler.await cmd resolved rejected).run client s).1 = rejected err) := by
  rcases hc : client cmd s with ⟨o, s'⟩
  cases o with
  | ok v => exact Or.inl ⟨v, by rw [run_await_ok client cmd resolved rejected s s' v hc]⟩
  | error err => exact Or.inr ⟨err, by rw [run_await_error client cmd resolved rejected s s' err hc]⟩

theorem postSet_falsy (req : Request) (h : (JSVal.prop req.body "key").toBoolean = false) :
    postSet req = .respond (statusJson 400 keyRequired) := by
  simp [postSet, h]

theorem postSet_truthy (req : Request) (h : (JSVal.prop req.body "key").toBoolean = true) :
    postSet req =
      .await (.set (JSVal.prop req.body "key") (JSVal.prop req.body "value"))
        (fun _ => json (okBody (JSVal.prop req.body "key") (JSVal.prop req.body "value")))
        (fun err => statusJson 500 (errorBody err)) := by
  simp [postSet, h, okBody]

theorem getGet_falsy (req : Request) (h : (JSVal.prop req.query "key").toBoolean = false) :
    getGet req = .respond (statusJson 400 keyRequired) := by
  simp [getGet, h]

theorem getGet_truthy (req : Request) (h : (JSVal.prop req.query "key").toBoolean = true) :
    getGet req =
      .await (.get (JSVal.prop req.query "key"))
        (fun value => json (okBody (JSVal.prop req.query "key") value))
        (fun err => statusJson 500 (errorBody err)) := by
  simp [getGet, h, okBody]

theorem postIncr_falsy (req : Request) (h : (JSVal.prop req.body "key").toBoolean = false) :
    postIncr req = .respond (statusJson 400 keyRequired) := by
  simp [postIncr, h]

theorem postIncr_truthy (req : Request) (h : (JSVal.prop req.body "key").toBoolean = true) :
    postIncr req =
      .await (.incr (JSVal.prop req.body "key"))
        (fun newVal => json (okBody (JSVal.prop req.body "key") newVal))
        (fun err => statusJson 500 (errorBody err)) := by
  simp [postIncr, h, okBody]

theorem toBoolean_str (k : String) (hk : k ≠ "") : (JSVal.str k).toBoolean = true := by
  simp [JSVal.toBoolean, hk]

/-- An awaiting handler whose continuations answer 200 and 500 never answers 400. -/
theorem await_status_ne_400 {σ : Type} (client : Client σ) (cmd : Command)
    (resolved : JSVal → Response) (rejected : JSError → Response) (s : σ)
    (h200 : ∀ v, (resolved v).status = 200) (h500 : ∀ err, (rejected err).status = 500) :
    ((Handler.await cmd resolved rejected).run client s).1.status ≠ 400 := by
  rcases run_await_status client cmd resolved rejected s with ⟨v, hv⟩ | ⟨err, he⟩
  · rw [hv, h200]; decide
  · rw [he, h500]; decide

/-! ## Validation -/

/-- C2: a request to POST /set, GET /get or POST /incr whose key is missing
(reads as `undefined`) or is the empty string is answered 400 with the static
body `{ error: 'Key is required' }`; the handler issues no store command and,
run against any client in any store state, leaves the store state as it was. -/
theorem validation_error_atomic {σ : Type} (client : Client σ) (s : σ) (req : Request) :
    ((JSVal.prop req.body "key" = .undefined ∨ JSVal.prop req.body "key" = .str "") →
      ((postSet req).commands = [] ∧
        (postSet req).run client s = (⟨400, .obj [("error", .str "Key is required")]⟩, s)) ∧
      ((postIncr req).commands = [] ∧
        (postIncr req).run client s = (⟨400, .obj [("error", .str "Key is required")]⟩, s))) ∧
    ((JSVal.prop req.query "key" = .undefined ∨ JSVal.prop req.query "key" = .str "") →
      ((getGet req).commands = [] ∧
        (getGet req).run client s = (⟨400, .obj [("error", .str "Key is required")]⟩, s))) := by
  constructor
  · intro h
    have hf : (JSVal.prop req.body "key").toBoolean = false := by
      rcases h with h | h <;> rw [h] <;> rfl
    rw [postSet_falsy req hf, postIncr_falsy req hf]
    exact ⟨⟨rfl, rfl⟩, rfl, rfl⟩
  · intro h
    have hf : (JSVal.prop req.query "key").toBoolean = false := by
      rcases h with h | h <;> rw [h] <;> rfl
    rw [getGet_falsy req hf]
    exact ⟨rfl, rfl⟩

/-- C2 at a request without a key in the body and with an empty key in the
query, against a store that holds data. -/
theorem validation_error_atomic_witness :
    ((postSet ⟨[("value", .str "v")], [("key", .str "")]⟩).commands = [] ∧
      (postSet ⟨[("value", .str "v")], [("key", .str "")]⟩).run (Store.exec redisProtocol)
          ⟨none, [("a", "1")]⟩ =
        (⟨400, .obj [("error", .str "Key is required")]⟩, ⟨none, [("a", "1")]⟩)) ∧
    ((getGet ⟨[("value", .str "v")], [("key", .str "")]⟩).commands = [] ∧
      (getGet ⟨[("value", .str "v")], [("key", .str "")]⟩).run (Store.exec redisProtocol)
          ⟨none, [("a", "1")]⟩ =
        (⟨400, .obj [("error", .str "Key is required")]⟩, ⟨none, [("a", "1")]⟩)) :=
  ⟨((validation_error_atomic (Store.exec redisProtocol) ⟨none, [("a", "1")]⟩
      ⟨[("value", .str "v")], [("key", .str "")]⟩).1 (Or.inl rfl)).1,
   (validation_error_atomic (Store.exec redisProtocol) ⟨none, [("a", "1")]⟩
      ⟨[("value", .str "v")], [("key", .str "")]⟩).2 (Or.inr rfl)⟩

/-- C10: the key check of /set, /get and /incr is the truthiness of the
language. Each handler answers 400 exactly when the supplied key is falsy,
whatever the client does; `undefined` (absent), `null`, the empty string, `0`,
`-0`, `NaN` and `false` are falsy; every non-empty string, non-zero number,
array and object is truthy; and a truthy key is handed to the store command
as it was supplied. -/
theorem key_check_is_truthiness {σ : Type} (client : Client σ) (s : σ) (req : Request) :
    ((((postSet req).run client s).1.status = 400 ↔
        (JSVal.prop req.body "key").toBoolean = false) ∧
      (((getGet req).run client s).1.status = 400 ↔
        (JSVal.prop req.query "key").toBoolean = false) ∧
      (((postIncr req).run client s).1.status = 400 ↔
        (JSVal.prop req.body "key").toBoolean = false)) ∧
    (JSVal.undefined.toBoolean = false ∧ JSVal.null.toBoolean = false ∧
      (JSVal.str "").toBoolean = false ∧ (JSVal.num (.fin 0)).toBoolean = false ∧
      (JSVal.num .negZero).toBoolean = false ∧ (JSVal.num .nan).toBoolean = false ∧
      (JSVal.bool false).toBoolean = false) ∧
    ((∀ k : String, k ≠ "" → (JSVal.str k).toBoolean = true) ∧
      (∀ q : ℚ, q ≠ 0 → (JSVal.num (.fin q)).toBoolean = true) ∧
      (∀ items, (JSVal.arr items).toBoolean = true) ∧
      (∀ props, (JSVal.obj props).toBoolean = true)) ∧
    ((JSVal.prop req.body "key").toBoolean = true →
      (postSet req).commands = [.set (JSVal.prop req.body "key") (JSVal.prop req.body "value")] ∧
      (postIncr req).commands = [.incr (JSVal.prop req.body "key")]) ∧
    ((JSVal.prop req.query "key").toBoolean = true →
      (getGet req).commands = [.get (JSVal.prop req.query "key")]) := by
  refine ⟨⟨?_, ?_, ?_⟩, ⟨rfl, rfl, rfl, rfl, rfl, rfl, rfl⟩, ⟨?_, ?_, ?_, ?_⟩, ?_, ?_⟩
  · cases hb : (JSVal.prop req.body "key").toBoolean with
    | false => rw [postSet_falsy req hb]; exact ⟨fun _ => rfl, fun _ => rfl⟩
    | true =>
      rw [postSet_truthy req hb]
      refine ⟨fun h => absurd h ?_, fun h => absurd h (by decide)⟩
      exact await_status_ne_400 client _ _ _ s (fun _ => rfl) (fun _ => rfl)
  · cases hb : (JSVal.prop req.query "key").toBoolean with
    | false => rw [getGet_falsy req hb]; exact ⟨fun _ => rfl, fun _ => rfl⟩
    | true =>
      rw [getGet_truthy req hb]
      refine ⟨fun h => absurd h ?_, fun h => absurd h (by decide)⟩
      exact await_status_ne_400 client _ _ _ s (fun _ => rfl) (fun _ => rfl)
  · cases hb : (JSVal.prop req.body "key").toBoolean with
    | false => rw [postIncr_falsy req hb]; exact ⟨fun _ => rfl, fun _ => rfl⟩
    | true =>
      rw [postIncr_truthy req hb]
      refine ⟨fun h => absurd h ?_, fun h => absurd h (by decide)⟩
      exact await_status_ne_400 client _ _ _ s (fun _ => rfl) (fun _ => rfl)
  · exact toBoolean_str
  · intro q hq
    simp [JSVal.toBoolean, JSNum.toBoolean, hq]
  · intro _; rfl
  · intro _; rfl
  · intro hb
    rw [postSet_truthy req hb, postIncr_truthy req hb]
    exact ⟨rfl, rfl⟩
  · intro hb
    rw [getGet_truthy req hb]
    rfl

/-- C10 at a body whose key is the number 7 and a query whose key is an
array: both pass the check and reach the store command unchanged. -/
theorem key_check_is_truthiness_witness :
    ((postSet ⟨[("key", .num (.fin 7))], [("key", .arr [.str "a"])]⟩).commands =
        [.set (.num (.fin 7)) .undefined] ∧
      (postIncr ⟨[("key", .num (.fin 7))], [("key", .arr [.str "a"])]⟩).commands =
        [.incr (.num (.fin 7))]) ∧
    (getGet ⟨[("key", .num (.fin 7))], [("key", .arr [.str "a"])]⟩).commands =
      [.get (.arr [.str "a"])] :=
  ⟨(key_check_is_truthiness (Store.exec redisProtocol) ⟨none, []⟩
      ⟨[("key", .num (.fin 7))], [("key", .arr [.str "a"])]⟩).2.2.2.1 (by decide),
   (key_check_is_truthiness (Store.exec redisProtocol) ⟨none, []⟩
      ⟨[("key", .num (.fin 7))], [("key", .arr [.str "a"])]⟩).2.2.2.2 rfl⟩

/-! ## The index route and the store-health route -/

/-- C7: GET / answers 200 for every value of the connection flag, every
client and every store state; it issues no store command and leaves the store
state as it was; the `redis` object of its body carries the configured host and
port and, as `connected`, the value of the flag when the handler runs; the
`endpoints` object is the fixed list. -/
theorem index_reports_flag {σ : Type} (client : Client σ) (s : σ) (env : Env)
    (redisConnected : Bool) (req : Request) :
    ((getIndex env redisConnected req).run client s).1.status = 200 ∧
    ((getIndex env redisConnected req).run client s).2 = s ∧
    (getIndex env redisConnected req).commands = [] ∧
    ((((getIndex env redisConnected req).run client s).1.body.get "redis").get "connected" =
      .bool redisConnected) ∧
    ((((getIndex env redisConnected req).run client s).1.body.get "redis").get "host" =
      .str (REDIS_HOST env)) ∧
    ((((getIndex env redisConnected req).run client s).1.body.get "redis").get "port" =
      .str (REDIS_PORT env)) ∧
    (((getIndex env redisConnected req).run client s).1.body.get "endpoints" = endpoints) ∧
    (∀ events : List Event,
      ((((getIndex env (redisConnectedAfter events) req).run client s).1.body.get
        "redis").get "connected" = .bool (redisConnectedAfter events))) := by
  refine ⟨rfl, rfl, rfl, ?_, ?_, ?_, ?_, ?_⟩ <;> intros <;>
    simp [getIndex, Handler.run, json, JSVal.get, JSVal.prop, List.lookup]

/-- C6: GET /redis-health issues exactly one command, a Ping, and its response
is decided by the outcome of that Ping alone: 200 with
`{ status: 'ok', redis: 'connected', ping: reply }` when the Ping resolves with
`reply`, 500 with `{ status: 'error', error: err.message }` when it is rejected
with `err`; the status is 200 exactly when the Ping resolves. So a run whose
Ping is rejected and a later run whose Ping resolves answer 500 and then 200. -/
theorem redis_health_reflects_ping {σ : Type} (client : Client σ) (req : Request) :
    (getRedisHealth req).commands = [.ping] ∧
    (∀ (s s' : σ) (reply : JSVal), client .ping s = (.ok reply, s') →
      (getRedisHealth req).run client s =
        (⟨200, .obj [("status", .str "ok"), ("redis", .str "connected"), ("ping", reply)]⟩,
          s')) ∧
    (∀ (s s' : σ) (err : JSError), client .ping s = (.error err, s') →
      (getRedisHealth req).run client s =
        (⟨500, .obj [("status", .str "error"), ("error", err.message)]⟩, s')) ∧
    (∀ s : σ, ((getRedisHealth req).run client s).1.status = 200 ↔
      ∃ reply s', client .ping s = (.ok reply, s')) ∧
    (∀ (s₁ t₁ s₂ t₂ : σ) (err : JSError) (reply : JSVal),
      client .ping s₁ = (.error err, t₁) → client .ping s₂ = (.ok reply, t₂) →
      ((getRedisHealth req).run client s₁).1 =
          ⟨500, .obj [("status", .str "error"), ("error", err.message)]⟩ ∧
        ((getRedisHealth req).run client s₂).1 =
          ⟨200, .obj [("status", .str "ok"), ("redis", .str "connected"), ("ping", reply)]⟩) := by
  have hok : ∀ (s s' : σ) (reply : JSVal), client .ping s = (.ok reply, s') →
      (getRedisHealth req).run client s =
        (⟨200, .obj [("status", .str "ok"), ("redis", .str "connected"), ("ping", reply)]⟩,
          s') := by
    intro s s' reply h
    exact run_await_ok client _ _ _ s s' reply h
  have herr : ∀ (s s' : σ) (err : JSError), client .ping s = (.error err, s') →
      (getRedisHealth req).run client s =
        (⟨500, .obj [("status", .str "error"), ("error", err.message)]⟩, s') := by
    intro s s' err h
    exact run_await_error client _ _ _ s s' err h
  refine ⟨rfl, hok, herr, ?_, ?_⟩
  · intro s
    rcases hc : client .ping s with ⟨o, s'⟩
    cases o with
    | ok v =>
      rw [hok s s' v hc]
      exact ⟨fun _ => ⟨v, s', rfl⟩, fun _ => rfl⟩
    | error err =>
      rw [herr s s' err hc]
      constructor
      · intro h
        exact absurd h (show (500 : Nat) ≠ 200 by decide)
      · rintro ⟨reply, t, h⟩
        cases h
  · intro s₁ t₁ s₂ t₂ err reply h₁ h₂
    rw [herr s₁ t₁ err h₁, hok s₂ t₂ reply h₂]
    exact ⟨rfl, rfl⟩

/-- C6 on the modelled store: down with "connect ECONNREFUSED", then
reachable. -/
theorem redis_health_reflects_ping_witness :
    ((getRedisHealth ⟨[], []⟩).run (Store.exec redisProtocol)
        ⟨some ⟨.str "connect ECONNREFUSED"⟩, []⟩).1 =
      ⟨500, .obj [("status", .str "error"), ("error", .str "connect ECONNREFUSED")]⟩ ∧
    ((getRedisHealth ⟨[], []⟩).run (Store.exec redisProtocol) ⟨none, []⟩).1 =
      ⟨200, .obj [("status", .str "ok"), ("redis", .str "connected"), ("ping", .str "PONG")]⟩ :=
  (redis_health_reflects_ping (Store.exec redisProtocol) ⟨[], []⟩).2.2.2.2
    ⟨some ⟨.str "connect ECONNREFUSED"⟩, []⟩ ⟨some ⟨.str "connect ECONNREFUSED"⟩, []⟩
    ⟨none, []⟩ ⟨none, []⟩ ⟨.str "connect ECONNREFUSED"⟩ (.str "PONG") rfl rfl

/-! ## POST /set -/

/-- C9: the value of POST /set is optional. For every body whose key is a
non-empty string, with or without a value (an absent value reads as
`undefined`), the handler issues the one command Set(key, value); when the
store resolves it the response is 200 with `{ status: 'ok', key, value }`
echoing the key and the value of the request; and whatever the store does the
response is never 400. -/
theorem set_value_optional {σ : Type} (client : Client σ) (s : σ) (req : Request) (k : String)
    (hkey : JSVal.prop req.body "key" = .str k) (hk : k ≠ "") :
    (postSet req).commands = [.set (.str k) (JSVal.prop req.body "value")] ∧
    (∀ (reply : JSVal) (s' : σ),
      client (.set (.str k) (JSVal.prop req.body "value")) s = (.ok reply, s') →
      (postSet req).run client s =
        (⟨200, .obj [("status", .str "ok"), ("key", .str k),
            ("value", JSVal.prop req.body "value")]⟩, s')) ∧
    ((postSet req).run client s).1.status ≠ 400 := by
  have hb : (JSVal.prop req.body "key").toBoolean = true := by
    rw [hkey]; exact toBoolean_str k hk
  rw [postSet_truthy req hb, hkey]
  refine ⟨rfl, ?_, ?_⟩
  · intro reply s' h
    exact run_await_ok client _ _ _ s s' reply h
  · exact await_status_ne_400 client _ _ _ s (fun _ => rfl) (fun _ => rfl)

/-- C9 at the body `{ key: 'a' }`, which has no value, against a client that
resolves every command. -/
theorem set_value_optional_witness :
    (postSet ⟨[("key", .str "a")], []⟩).commands = [.set (.str "a") .undefined] ∧
    (postSet ⟨[("key", .str "a")], []⟩).run (fun _ (n : Nat) => (.ok (.str "OK"), n + 1)) 0 =
      (⟨200, .obj [("status", .str "ok"), ("key", .str "a"), ("value", .undefined)]⟩, 1) ∧
    ((postSet ⟨[("key", .str "a")], []⟩).run
      (fun _ (n : Nat) => (.ok (.str "OK"), n + 1)) 0).1.status ≠ 400 :=
  have h := set_value_optional (fun _ (n : Nat) => (.ok (.str "OK"), n + 1)) 0
    ⟨[("key", .str "a")], []⟩ "a" rfl (by decide)
  ⟨h.1, h.2.1 (.str "OK") 1 rfl, h.2.2⟩

/-! ## The connection flag -/

/-- The flag after a run of events from any starting value: it is set exactly
when the events contain a last `ready` with no `error` behind it, or contain
neither and the flag was set at the start. -/
theorem foldl_onEvent_eq_true (events : List Event) :
    ∀ b : Bool, events.foldl onEvent b = true ↔
      (∃ pre post, events = pre ++ Event.ready :: post ∧ Event.ready ∉ post ∧
        Event.error ∉ post) ∨
      (b = true ∧ Event.ready ∉ events ∧ Event.error ∉ events) := by
  induction events with
  | nil =>
    intro b
    simp
  | cons e rest ih =>
    intro b
    rw [List.foldl_cons, ih]
    constructor
    · rintro (⟨pre, post, h, hr, he⟩ | ⟨hb, hr, he⟩)
      · exact Or.inl ⟨e :: pre, post, by rw [h]; rfl, hr, he⟩
      · cases e with
        | error => exact absurd hb (show ¬ (false = true) by decide)
        | ready => exact Or.inl ⟨[], rest, rfl, hr, he⟩
        | connect => exact Or.inr ⟨hb, by simp [hr], by simp [he]⟩
        | connectResolved => exact Or.inr ⟨hb, by simp [hr], by simp [he]⟩
        | connectRejected => exact Or.inr ⟨hb, by simp [hr], by simp [he]⟩
    · rintro (⟨pre, post, h, hr, he⟩ | ⟨hb, hr, he⟩)
      · cases pre with
        | nil =>
          simp only [List.nil_append, List.cons.injEq] at h
          obtain ⟨h1, h2⟩ := h
          subst h1 h2
          exact Or.inr ⟨rfl, hr, he⟩
        | cons p pre =>
          simp only [List.cons_append, List.cons.injEq] at h
          exact Or.inl ⟨pre, post, h.2, hr, he⟩
      · simp only [List.mem_cons, not_or] at hr he
        refine Or.inr ⟨?_, hr.2, he.2⟩
        cases e with
        | error => exact absurd rfl he.1
        | ready => exact absurd rfl hr.1
        | connect => exact hb
        | connectResolved => exact hb
        | connectRejected => exact hb

/-- C8: the flag starts cleared (Disconnected); an `error` event clears it
whatever it was; a `ready` event sets it; a `connect` event and a rejected
startup `connect()` leave it as it was, so a flag that is not set stays not
set. Hence after every finite sequence of events the flag is set exactly when
the sequence has a last `ready` event with no `error` event after it. -/
theorem connection_flag_lifecycle :
    redisConnectedAfter [] = false ∧
    (∀ b : Bool, onEvent b .error = false) ∧
    (∀ b : Bool, onEvent b .ready = true) ∧
    (∀ b : Bool, onEvent b .connect = b ∧ onEvent b .connectRejected = b) ∧
    (onEvent false .connect = false ∧ onEvent false .connectRejected = false) ∧
    (∀ (events : List Event) (e : Event),
      redisConnectedAfter (events ++ [e]) = onEvent (redisConnectedAfter events) e) ∧
    (∀ events : List Event, redisConnectedAfter events = true ↔
      ∃ pre post, events = pre ++ Event.ready :: post ∧ Event.ready ∉ post ∧
        Event.error ∉ post) := by
  refine ⟨rfl, fun _ => rfl, fun _ => rfl, fun _ => ⟨rfl, rfl⟩, ⟨rfl, rfl⟩, ?_, ?_⟩
  · intro events e
    simp [redisConnectedAfter, List.foldl_append]
  · intro events
    unfold redisConnectedAfter
    rw [foldl_onEvent_eq_true]
    simp [redisConnectedInit]

/-! ## The modelled store -/

theorem lookup_write (s : Store) (k k' v : String) :
    (s.write k' v).lookup k = if k = k' then some v else s.lookup k := by
  by_cases h : k = k'
  · simp [Store.write, Store.lookup, List.lookup, h]
  · have hb : (k == k') = false := by simpa using h
    simp [Store.write, Store.lookup, List.lookup, h, hb]

theorem down_write (s : Store) (k v : String) : (s.write k v).down = s.down := rfl

theorem exec_of_down (P : Protocol) (cmd : Command) (s : Store) (err : JSError)
    (h : s.down = some err) : Store.exec P cmd s = (.error err, s) := by
  simp [Store.exec, h]

theorem exec_set (P : Protocol) (s : Store) (k v : String) (h : s.down = none) :
    Store.exec P (.set (.str k) (.str v)) s = (.ok P.setReply, s.write k v) := by
  simp [Store.exec, h]

theorem exec_get (P : Protocol) (s : Store) (k : String) (h : s.down = none) :
    Store.exec P (.get (.str k)) s =
      (.ok (match s.lookup k with
        | some v => .str v
        | none => .null), s) := by
  cases hl : s.lookup k <;> simp [Store.exec, h, hl]

theorem exec_incr_absent (P : Protocol) (s : Store) (k : String) (h : s.down = none)
    (hl : s.lookup k = none) :
    Store.exec P (.incr (.str k)) s =
      (.ok (.num (.ofInt 1)), s.write k (formatInteger 1)) := by
  simp [Store.exec, h, hl]

theorem exec_incr_integer (P : Protocol) (s : Store) (k v : String) (i : Int)
    (h : s.down = none) (hl : s.lookup k = some v) (hv : parseInteger v = some i) :
    Store.exec P (.incr (.str k)) s =
      (.ok (.num (.ofInt (i + 1))), s.write k (formatInteger (i + 1))) := by
  simp [Store.exec, h, hl, hv]

theorem exec_incr_nonnumeric (P : Protocol) (s : Store) (k v : String)
    (h : s.down = none) (hl : s.lookup k = some v) (hv : parseInteger v = none) :
    Store.exec P (.incr (.str k)) s = (.error P.notAnInteger, s) := by
  simp [Store.exec, h, hl, hv]

/-- No command changes whether the store is reachable. -/
theorem exec_down_eq (P : Protocol) (cmd : Command) (s : Store) :
    (Store.exec P cmd s).2.down = s.down := by
  unfold Store.exec
  split
  · rfl
  · split
    · rfl
    · rfl
    · split <;> rfl
    · split
      · dsimp only
        split <;> rfl
      · rfl
    · rfl

/-- A command that may not write `k` leaves the value under `k` as it was. -/
theorem exec_lookup_eq (P : Protocol) (cmd : Command) (s : Store) (k : String)
    (h : cmd.mayWrite k = false) : (Store.exec P cmd s).2.lookup k = s.lookup k := by
  unfold Store.exec
  split
  · rfl
  · split
    · rfl
    · rename_i k' v
      have hk : ¬ k = k' := by
        intro e
        subst e
        simp [Command.mayWrite] at h
      simp [lookup_write, hk]
    · split <;> rfl
    · rename_i k'
      have hk : ¬ k = k' := by
        intro e
        subst e
        simp [Command.mayWrite] at h
      split
      · dsimp only
        split
        · simp [lookup_write, hk]
        · rfl
      · simp [lookup_write, hk]
    · rfl

theorem execAll_down_eq (P : Protocol) (cmds : List Command) :
    ∀ s : Store, (Store.execAll P cmds s).down = s.down := by
  induction cmds with
  | nil => intro s; rfl
  | cons c cs ih =>
    intro s
    rw [Store.execAll, ih, exec_down_eq]

theorem execAll_lookup_eq (P : Protocol) (k : String) (cmds : List Command) :
    ∀ s : Store, (∀ c ∈ cmds, Command.mayWrite k c = false) →
      (Store.execAll P cmds s).lookup k = s.lookup k := by
  induction cmds with
  | nil => intro s _; rfl
  | cons c cs ih =>
    intro s h
    rw [Store.execAll, ih _ (fun c' hc' => h c' (List.mem_cons_of_mem _ hc')),
      exec_lookup_eq P c s k (h c (List.mem_cons_self _ _))]

/-! ## The handlers against the modelled store -/

theorem postSet_setRequest (k : String) (value : JSVal) (hk : k ≠ "") :
    postSet (setRequest (.str k) value) =
      .await (.set (.str k) value)
        (fun _ => json (okBody (.str k) value))
        (fun err => statusJson 500 (errorBody err)) := by
  have hb : (JSVal.prop (setRequest (.str k) value).body "key").toBoolean = true :=
    toBoolean_str k hk
  rw [postSet_truthy _ hb]
  rfl

theorem getGet_getRequest (k : String) (hk : k ≠ "") :
    getGet (getRequest (.str k)) =
      .await (.get (.str k))
        (fun value => json (okBody (.str k) value))
        (fun err => statusJson 500 (errorBody err)) := by
  have hb : (JSVal.prop (getRequest (.str k)).query "key").toBoolean = true :=
    toBoolean_str k hk
  rw [getGet_truthy _ hb]
  rfl

theorem postIncr_incrRequest (k : String) (hk : k ≠ "") :
    postIncr (incrRequest (.str k)) =
      .await (.incr (.str k))
        (fun newVal => json (okBody (.str k) newVal))
        (fun err => statusJson 500 (errorBody err)) := by
  have hb : (JSVal.prop (incrRequest (.str k)).body "key").toBoolean = true :=
    toBoolean_str k hk
  rw [postIncr_truthy _ hb]
  rfl

/-- GET /get on a reachable store answers the value under the key, `null` when
there is none, and leaves the store as it was. -/
theorem run_getGet (P : Protocol) (s : Store) (k : String) (hk : k ≠ "")
    (hup : s.down = none) :
    (getGet (getRequest (.str k))).run (Store.exec P) s =
      (json (okBody (.str k) (match s.lookup k with
        | some v => .str v
        | none => .null)), s) := by
  rw [getGet_getRequest k hk]
  exact run_await_ok _ _ _ _ s s _ (exec_get P s k hup)

/-- C1: set/get round trip on the modelled store. For every non-empty key `k`
and every value `v`: when POST /set with body `{ key: k, value: v }` is
answered 200 (the store accepted the write), then after any commands that do
not write `k`, GET /get with `key=k` answers 200 with
`{ status: 'ok', key: k, value: v }`. -/
theorem set_get_roundtrip (P : Protocol) (s : Store) (k v : String) (between : List Command)
    (hk : k ≠ "")
    (haccept : ((postSet (setRequest (.str k) (.str v))).run (Store.exec P) s).1.status = 200)
    (hbetween : ∀ c ∈ between, Command.mayWrite k c = false) :
    ((getGet (getRequest (.str k))).run (Store.exec P)
      (Store.execAll P between
        ((postSet (setRequest (.str k) (.str v))).run (Store.exec P) s).2)).1 =
      ⟨200, .obj [("status", .str "ok"), ("key", .str k), ("value", .str v)]⟩ := by
  rw [postSet_setRequest k _ hk] at haccept ⊢
  cases hd : s.down with
  | some err =>
    rw [run_await_error _ _ _ _ s s err (exec_of_down P _ s err hd)] at haccept
    exact absurd haccept (show (500 : Nat) ≠ 200 by decide)
  | none =>
    rw [run_await_ok _ _ _ _ s _ _ (exec_set P s k v hd)]
    have hup : (Store.execAll P between (s.write k v)).down = none := by
      rw [execAll_down_eq]; exact hd
    have hl : (Store.execAll P between (s.write k v)).lookup k = some v := by
      rw [execAll_lookup_eq P k between _ hbetween, lookup_write]
      simp
    rw [run_getGet P _ k hk hup, hl]
    rfl

/-- C1 at key "a" and value "hello", a Ping, a Get and a Set of another key
in between. -/
theorem set_get_roundtrip_witness :
    ((getGet (getRequest (.str "a"))).run (Store.exec redisProtocol)
      (Store.execAll redisProtocol [.ping, .get (.str "a"), .set (.str "b") (.str "x")]
        ((postSet (setRequest (.str "a") (.str "hello"))).run (Store.exec redisProtocol)
          ⟨none, [("a", "old")]⟩).2)).1 =
      ⟨200, .obj [("status", .str "ok"), ("key", .str "a"), ("value", .str "hello")]⟩ :=
  set_get_roundtrip redisProtocol ⟨none, [("a", "old")]⟩ "a" "hello"
    [.ping, .get (.str "a"), .set (.str "b") (.str "x")] (by decide) rfl (by decide)

/-- C3: GET /get for a non-empty key that the store does not hold. On a
reachable store the response is 200 with `{ status: 'ok', key: k, value: null }`,
not an error; and in every case the store is left as it was, so the key is not
created. -/
theorem get_absent_key (P : Protocol) (s : Store) (k : String) (hk : k ≠ "")
    (habsent : s.lookup k = none) :
    (s.down = none →
      ((getGet (getRequest (.str k))).run (Store.exec P) s).1 =
        ⟨200, .obj [("status", .str "ok"), ("key", .str k), ("value", .null)]⟩) ∧
    ((getGet (getRequest (.str k))).run (Store.exec P) s).2 = s ∧
    (((getGet (getRequest (.str k))).run (Store.exec P) s).2).lookup k = none := by
  have hstate : ((getGet (getRequest (.str k))).run (Store.exec P) s).2 = s := by
    cases hd : s.down with
    | some err =>
      rw [getGet_getRequest k hk, run_await_error _ _ _ _ s s err (exec_of_down P _ s err hd)]
    | none => rw [run_getGet P s k hk hd]
  refine ⟨?_, hstate, ?_⟩
  · intro hup
    rw [run_getGet P s k hk hup, habsent]
    rfl
  · rw [hstate]; exact habsent

/-- C3 at the key "missing" on a store that holds another key. -/
theorem get_absent_key_witness :
    ((getGet (getRequest (.str "missing"))).run (Store.exec redisProtocol)
        ⟨none, [("a", "1")]⟩).1 =
      ⟨200, .obj [("status", .str "ok"), ("key", .str "missing"), ("value", .null)]⟩ ∧
    (((getGet (getRequest (.str "missing"))).run (Store.exec redisProtocol)
        ⟨none, [("a", "1")]⟩).2).lookup "missing" = none :=
  have h := get_absent_key redisProtocol ⟨none, [("a", "1")]⟩ "missing" (by decide) (by decide)
  ⟨h.1 rfl, h.2.2⟩

/-- The response `{ status: 'ok', key: k, value: n }` of the call that brings
the counter to `n`. -/
theorem run_postIncr_counter (P : Protocol) (s : Store) (k : String) (m : Nat) (hk : k ≠ "")
    (hup : s.down = none)
    (hval : s.lookup k = some (formatInteger (m : Int)) ∨ (m = 0 ∧ s.lookup k = none)) :
    (postIncr (incrRequest (.str k))).run (Store.exec P) s =
      (json (okBody (.str k) (.num (.ofInt ((m + 1 : Nat) : Int)))),
        s.write k (formatInteger ((m + 1 : Nat) : Int))) := by
  rw [postIncr_incrRequest k hk]
  rcases hval with hl | ⟨hm, hl⟩
  · have h := exec_incr_integer P s k _ (m : Int) hup hl (parseInteger_formatInteger m)
    rw [run_await_ok _ _ _ _ s _ _ h]
    rfl
  · subst hm
    rw [run_await_ok _ _ _ _ s _ _ (exec_incr_absent P s k hup hl)]
    rfl

theorem incrCalls_counter (P : Protocol) (k : String) (hk : k ≠ "")
    (gaps : List (List Command)) :
    ∀ (s : Store) (m : Nat), s.down = none →
      (s.lookup k = some (formatInteger (m : Int)) ∨ (m = 0 ∧ s.lookup k = none)) →
      (∀ gap ∈ gaps, ∀ c ∈ gap, Command.mayWrite k c = false) →
      incrCalls P k gaps s =
        (List.range gaps.length).map
          (fun i => json (okBody (.str k) (.num (.ofInt ((m + i + 1 : Nat) : Int))))) := by
  induction gaps with
  | nil => intro s m _ _ _; rfl
  | cons gap gaps ih =>
    intro s m hup hval hgaps
    have hgap : ∀ c ∈ gap, Command.mayWrite k c = false := hgaps gap (List.mem_cons_self _ _)
    have hup' : (Store.execAll P gap s).down = none := by rw [execAll_down_eq]; exact hup
    have hval' : (Store.execAll P gap s).lookup k = some (formatInteger (m : Int)) ∨
        (m = 0 ∧ (Store.execAll P gap s).lookup k = none) := by
      rw [execAll_lookup_eq P k gap s hgap]; exact hval
    have hrun := run_postIncr_counter P (Store.execAll P gap s) k m hk hup' hval'
    have hrest := ih ((Store.execAll P gap s).write k (formatInteger ((m + 1 : Nat) : Int)))
      (m + 1) hup' (Or.inl (by rw [lookup_write]; simp))
      (fun g hg => hgaps g (List.mem_cons_of_mem _ hg))
    simp only [incrCalls, hrun, hrest, List.length_cons, List.range_succ_eq_map, List.map_cons,
      List.map_map]
    refine congrArg₂ List.cons rfl (List.map_congr_left ?_)
    intro i _
    simp only [Function.comp]
    have : m + 1 + i + 1 = m + (i + 1) + 1 := by omega
    rw [this]

/-- C4: POST /incr on a fresh key, on the modelled store. For every non-empty
key `k` that a reachable store does not hold and every number of calls, with
any commands that do not write `k` in between, the responses of the successive
calls with body `{ key: k }` are 200 with `{ status: 'ok', key: k, value: i }`
for i = 1, 2, 3, ... in order; the first call answers 1 and a later call
answers a larger value than an earlier one. -/
theorem incr_fresh_key_counts (P : Protocol) (s : Store) (k : String)
    (gaps : List (List Command)) (hk : k ≠ "") (hup : s.down = none)
    (habsent : s.lookup k = none)
    (hgaps : ∀ gap ∈ gaps, ∀ c ∈ gap, Command.mayWrite k c = false) :
    incrCalls P k gaps s =
      (List.range gaps.length).map (fun i =>
        (⟨200, .obj [("status", .str "ok"), ("key", .str k),
          ("value", .num (.ofInt ((i + 1 : Nat) : Int)))]⟩ : Response)) ∧
    (∀ i, i < gaps.length →
      (incrCalls P k gaps s)[i]? =
        some ⟨200, .obj [("status", .str "ok"), ("key", .str k),
          ("value", .num (.ofInt ((i + 1 : Nat) : Int)))]⟩) ∧
    (0 < gaps.length →
      (incrCalls P k gaps s).head? =
        some ⟨200, .obj [("status", .str "ok"), ("key", .str k),
          ("value", .num (.ofInt 1))]⟩) ∧
    (∀ i j, i < j → j < gaps.length →
      ∃ a b : Int,
        ((incrCalls P k gaps s)[i]?).map (fun r => r.body.get "value") =
          some (.num (.ofInt a)) ∧
        ((incrCalls P k gaps s)[j]?).map (fun r => r.body.get "value") =
          some (.num (.ofInt b)) ∧ a < b) := by
  have hall := incrCalls_counter P k hk gaps s 0 hup (Or.inr ⟨rfl, habsent⟩) hgaps
  simp only [Nat.zero_add] at hall
  have hidx : ∀ i, i < gaps.length →
      (incrCalls P k gaps s)[i]? =
        some ⟨200, .obj [("status", .str "ok"), ("key", .str k),
          ("value", .num (.ofInt ((i + 1 : Nat) : Int)))]⟩ := by
    intro i hi
    rw [hall, List.getElem?_map, List.getElem?_range hi]
    rfl
  refine ⟨hall, hidx, ?_, ?_⟩
  · intro hpos
    rw [List.head?_eq_getElem?, hidx 0 hpos]
    rfl
  · intro i j hij hj
    refine ⟨((i + 1 : Nat) : Int), ((j + 1 : Nat) : Int), ?_, ?_, ?_⟩
    · rw [hidx i (by omega)]; rfl
    · rw [hidx j hj]; rfl
    · omega

/-- C4 at the key "counter": three calls, with traffic on other keys and a
read of the counter in between. -/
theorem incr_fresh_key_counts_witness :
    incrCalls redisProtocol "counter"
        [[], [.get (.str "counter"), .set (.str "b") (.str "x")], [.ping, .incr (.str "b")]]
        ⟨none, [("b", "7")]⟩ =
      [⟨200, .obj [("status", .str "ok"), ("key", .str "counter"), ("value", .num (.ofInt 1))]⟩,
        ⟨200, .obj [("status", .str "ok"), ("key", .str "counter"), ("value", .num (.ofInt 2))]⟩,
        ⟨200, .obj [("status", .str "ok"), ("key", .str "counter"),
          ("value", .num (.ofInt 3))]⟩] :=
  (incr_fresh_key_counts redisProtocol ⟨none, [("b", "7")]⟩ "counter"
    [[], [.get (.str "counter"), .set (.str "b") (.str "x")], [.ping, .incr (.str "b")]]
    (by decide) rfl (by decide) (by decide)).1

/-- C5: store errors pass through verbatim. For POST /set, GET /get and
POST /incr with a non-empty key, against any client: when the one store command
is rejected with `err`, the response is 500 with body `{ error: err.message }`.
On the modelled store, POST /incr on a key whose value is a non-numeric string
answers 500 with the store's error and leaves the store, and so that value, as
it was. -/
theorem store_error_passthrough {σ : Type} (client : Client σ) (s s' : σ) (k : String)
    (err : JSError) (hk : k ≠ "") :
    (∀ req : Request, JSVal.prop req.body "key" = .str k →
      client (.set (.str k) (JSVal.prop req.body "value")) s = (.error err, s') →
      (postSet req).run client s = (⟨500, .obj [("error", err.message)]⟩, s')) ∧
    (∀ req : Request, JSVal.prop req.query "key" = .str k →
      client (.get (.str k)) s = (.error err, s') →
      (getGet req).run client s = (⟨500, .obj [("error", err.message)]⟩, s')) ∧
    (∀ req : Request, JSVal.prop req.body "key" = .str k →
      client (.incr (.str k)) s = (.error err, s') →
      (postIncr req).run client s = (⟨500, .obj [("error", err.message)]⟩, s')) ∧
    (∀ (P : Protocol) (t : Store) (v : String), t.down = none → t.lookup k = some v →
      parseInteger v = none →
      (postIncr (incrRequest (.str k))).run (Store.exec P) t =
          (⟨500, .obj [("error", P.notAnInteger.message)]⟩, t) ∧
        ((postIncr (incrRequest (.str k))).run (Store.exec P) t).2.lookup k = some v) := by
  refine ⟨?_, ?_, ?_, ?_⟩
  · intro req hkey h
    have hb : (JSVal.prop req.body "key").toBoolean = true := by
      rw [hkey]; exact toBoolean_str k hk
    rw [postSet_truthy req hb, hkey]
    exact run_await_error client _ _ _ s s' err h
  · intro req hkey h
    have hb : (JSVal.prop req.query "key").toBoolean = true := by
      rw [hkey]; exact toBoolean_str k hk
    rw [getGet_truthy req hb, hkey]
    exact run_await_error client _ _ _ s s' err h
  · intro req hkey h
    have hb : (JSVal.prop req.body "key").toBoolean = true := by
      rw [hkey]; exact toBoolean_str k hk
    rw [postIncr_truthy req hb, hkey]
    exact run_await_error client _ _ _ s s' err h
  · intro P t v hup hl hv
    have hrun : (postIncr (incrRequest (.str k))).run (Store.exec P) t =
        (⟨500, .obj [("error", P.notAnInteger.message)]⟩, t) := by
      rw [postIncr_incrRequest k hk]
      exact run_await_error _ _ _ _ t t _ (exec_incr_nonnumeric P t k v hup hl hv)
    exact ⟨hrun, by rw [hrun]; exact hl⟩

/-- C5 on the modelled store: a lost connection under POST /set and GET /get,
and POST /incr on the key "name" holding "alice". -/
theorem store_error_passthrough_witness :
    (postSet (setRequest (.str "name") (.str "bob"))).run (Store.exec redisProtocol)
        ⟨some ⟨.str "Socket closed unexpectedly"⟩, [("name", "alice")]⟩ =
      (⟨500, .obj [("error", .str "Socket closed unexpectedly")]⟩,
        ⟨some ⟨.str "Socket closed unexpectedly"⟩, [("name", "alice")]⟩) ∧
    (getGet (getRequest (.str "name"))).run (Store.exec redisProtocol)
        ⟨some ⟨.str "Socket closed unexpectedly"⟩, [("name", "alice")]⟩ =
      (⟨500, .obj [("error", .str "Socket closed unexpectedly")]⟩,
        ⟨some ⟨.str "Socket closed unexpectedly"⟩, [("name", "alice")]⟩) ∧
    ((postIncr (incrRequest (.str "name"))).run (Store.exec redisProtocol)
        ⟨none, [("name", "alice")]⟩ =
      (⟨500, .obj [("error", .str "ERR value is not an integer or out of range")]⟩,
        ⟨none, [("name", "alice")]⟩) ∧
      ((postIncr (incrRequest (.str "name"))).run (Store.exec redisProtocol)
        ⟨none, [("name", "alice")]⟩).2.lookup "name" = some "alice") :=
  have h := store_error_passthrough (Store.exec redisProtocol)
    ⟨some ⟨.str "Socket closed unexpectedly"⟩, [("name", "alice")]⟩
    ⟨some ⟨.str "Socket closed unexpectedly"⟩, [("name", "alice")]⟩ "name"
    ⟨.str "Socket closed unexpectedly"⟩ (by decide)
  ⟨h.1 (setRequest (.str "name") (.str "bob")) rfl rfl,
   h.2.1 (getRequest (.str "name")) rfl rfl,
   h.2.2.2 redisProtocol ⟨none, [("name", "alice")]⟩ "alice" rfl (by decide) (by decide)⟩

end RedisMigration
